import Mathlib

/-!
Verification development for the file-management core of the pterodactyl-ts
client library (the `File` and `FileManager` classes and the shared
`APIRequest` error-translation layer).

The TypeScript code is shallowly embedded: every pure computation (string
slicing, path composition, the mode-string decoder, the scan over a directory
listing) is translated to an executable Lean function; every network-bound
operation is modelled as a function of the upstream data it would receive,
returning the list of HTTP requests the operation issues together with the
result it computes.  A thrown `PterodactylAPIError` is modelled as
`Except.error` carrying the error message; a JavaScript function that falls
off its end (implicitly returning `undefined`) is modelled as an `Option`
whose value is `none`.  Wall-clock effects (`fetchedAt`) and `Date` parsing
are not modelled: timestamp strings are carried verbatim.
-/

deriving instance DecidableEq for Except

namespace Ptero

/-! ### JavaScript string primitives

Executable models of the string operations the source uses:
`charAt`, `substr`, `slice(0, -1)`, `slice(1)`, `endsWith("/")`,
`startsWith("/")`, `split("/")` and `Array.join("/")`. -/

/-- JS `s.charAt(i)`: the one-character string at index `i`, or `""` when out
of range. -/
def jsCharAt (s : String) (i : Nat) : String :=
  match s.data.get? i with
  | some c => String.mk [c]
  | none => ""

/-- JS `s.substr(start, len)`: up to `len` characters starting at `start`. -/
def jsSubstr (s : String) (start len : Nat) : String :=
  String.mk ((s.data.drop start).take len)

/-- JS `s.endsWith("/")`. -/
def jsEndsWithSlash (s : String) : Bool :=
  s.data.getLast? == some '/'

/-- JS `s.startsWith("/")`. -/
def jsStartsWithSlash (s : String) : Bool :=
  s.data.head? == some '/'

/-- The `if (s.endsWith("/")) s = s.slice(0, -1)` idiom that recurs through
the source: drop exactly one trailing separator when present (the spec's
`trimTrailingSeparator`). -/
def trimTrailingSeparator (s : String) : String :=
  if jsEndsWithSlash s then String.mk s.data.dropLast else s

/-- The `if (s.startsWith("/")) s = s.slice(1)` idiom: drop exactly one
leading separator when present. -/
def stripLeadingSeparator (s : String) : String :=
  if jsStartsWithSlash s then String.mk (s.data.drop 1) else s

/-- Accumulator-style core of JS `String.prototype.split` with a one-character
separator. -/
def jsSplitAux (sep : Char) : List Char → List Char → List String
  | [], acc => [String.mk acc.reverse]
  | c :: rest, acc =>
    if c = sep then String.mk acc.reverse :: jsSplitAux sep rest []
    else jsSplitAux sep rest (c :: acc)

/-- JS `s.split(sep)` for a one-character separator; always returns at least
one element (`"".split("/") == [""]`). -/
def jsSplit (s : String) (sep : Char) : List String :=
  jsSplitAux sep s.data []

/-- JS `Array.prototype.join(sep)`. -/
def jsJoin (sep : String) : List String → String
  | [] => ""
  | [a] => a
  | a :: rest => a ++ sep ++ jsJoin sep rest

/-- Whether a path string contains a double separator `"//"` anywhere. -/
def hasDD : List Char → Bool
  | [] => false
  | [_] => false
  | a :: b :: rest => (a == '/' && b == '/') || hasDD (b :: rest)

/-- String-level wrapper for `hasDD`. -/
def hasDoubleSep (s : String) : Bool :=
  hasDD s.data

/-! ### The request gateway (`APIRequest`, src Request module)

`makeRequest` hands `APIRequest` either a completed axios response or the
`errors` list extracted from an error response body.  `APIRequest`'s own
classification logic is embedded below; its input is the outcome delivered
to it. -/

/-- A completed HTTP response as seen by `APIRequest`: status code, status
text and the raw payload (axios `response.data`), carried verbatim. -/
structure HttpResponse where
  status : Nat
  statusText : String
  payload : String
  deriving Repr, DecidableEq

/-- One element of an upstream `errors` list.  Fields are optional strings;
in the JS truthiness tests an absent field and an empty string are both
falsy. -/
structure ErrorItem where
  code : Option String
  status : Option String
  source : Option String
  detail : Option String
  deriving Repr, DecidableEq

/-- The outcome `makeRequest` delivers to `APIRequest`: either a completed
response or the structured error list found in an error body. -/
inductive MakeRequestResult where
  | response (r : HttpResponse)
  | errors (es : List ErrorItem)
  deriving Repr, DecidableEq

/-- JS truthiness of an optional string field (`undefined` and `""` are
falsy; every other string is truthy). -/
def truthyField : Option String → Bool
  | none => false
  | some s => s != ""

/-- The field value interpolated into a template literal (only used under a
truthiness guard, where the field is present). -/
def fieldStr (o : Option String) : String :=
  o.getD ""

/-- The `e.code && e.status && e.detail` guard of the error loop. -/
def errHasCodeStatusDetail (e : ErrorItem) : Bool :=
  truthyField e.code && truthyField e.status && truthyField e.detail

/-- The `e.code && e.source && e.detail` guard of the error loop. -/
def errHasCodeSourceDetail (e : ErrorItem) : Bool :=
  truthyField e.code && truthyField e.source && truthyField e.detail

/-- The `for (const e of error)` loop of `APIRequest`: throw on the first
element matching one of the two recognized shapes; if no element matches, the
loop ends and the function implicitly returns `undefined` (modelled as
`.ok none`). -/
def handleErrorList : List ErrorItem → Except String (Option HttpResponse)
  | [] => .ok none
  | e :: rest =>
    if errHasCodeStatusDetail e then
      .error (fieldStr e.code ++ " (" ++ fieldStr e.status ++ "): " ++ fieldStr e.detail)
    else if errHasCodeSourceDetail e then
      .error (fieldStr e.detail)
    else
      handleErrorList rest

/-- The message produced for a matching error element (used to state how the
loop classifies the first matching element). -/
def classifyError (e : ErrorItem) : String :=
  if errHasCodeStatusDetail e then
    fieldStr e.code ++ " (" ++ fieldStr e.status ++ "): " ++ fieldStr e.detail
  else
    fieldStr e.detail

/-- Embedding of `APIRequest(options, supressErrors = [])` (Request module):
a completed response succeeds when its status is 200 or suppressed, and is
returned verbatim; any other completed status throws the "unexpected error"
message; an error-list outcome runs the classification loop. -/
def APIRequest (outcome : MakeRequestResult) (supressErrors : List Nat := []) :
    Except String (Option HttpResponse) :=
  match outcome with
  | .response r =>
    if r.status = 200 ∨ r.status ∈ supressErrors then
      .ok (some r)
    else
      .error ("An unexpected error occurred (" ++ toString r.status ++ "): " ++ r.statusText)
  | .errors es => handleErrorList es

/-- C1: a completed response succeeds (returning the payload verbatim) iff
its status is 200 or a member of the suppressed set; any other completed
status fails with the message
`"An unexpected error occurred (<status>): <statusText>"`. -/
theorem claim_C1 (r : HttpResponse) (supp : List Nat) :
    (APIRequest (.response r) supp = .ok (some r) ↔ (r.status = 200 ∨ r.status ∈ supp)) ∧
    (¬(r.status = 200 ∨ r.status ∈ supp) →
      APIRequest (.response r) supp =
        .error ("An unexpected error occurred (" ++ toString r.status ++ "): " ++ r.statusText)) := by
  by_cases h : r.status = 200 ∨ r.status ∈ supp <;> simp [APIRequest, h]

/-- C1 witness: with status 200 the payload comes back unchanged, and with
status 204 and `{204}` suppressed the call succeeds. -/
theorem claim_C1_witness :
    APIRequest (.response ⟨200, "OK", "payload"⟩) [] = .ok (some ⟨200, "OK", "payload"⟩) ∧
    APIRequest (.response ⟨204, "No Content", ""⟩) [204] = .ok (some ⟨204, "No Content", ""⟩) :=
  ⟨(claim_C1 ⟨200, "OK", "payload"⟩ []).1.mpr (Or.inl rfl),
   (claim_C1 ⟨204, "No Content", ""⟩ [204]).1.mpr (Or.inr (by decide))⟩

/-- C2 counterexample: a non-empty structured error list whose (single)
element matches neither recognized shape is swallowed — `APIRequest`
completes as if successful (JS: the loop ends and the function returns
`undefined`), contradicting the claim that execute always fails on a
non-empty error list. -/
theorem claim_C2_counterexample :
    ([({ code := none, status := none, source := none, detail := none } : ErrorItem)] ≠ []) ∧
    APIRequest
      (.errors [{ code := none, status := none, source := none, detail := none }]) [] =
      .ok none := by
  exact ⟨by decide, rfl⟩

/-- C2 (amended): on an error-list outcome, `APIRequest` fails exactly when
some element matches one of the two recognized shapes, classifying the
*first matching* element — `{code, status, detail}` (all truthy) yields
`"<code> (<status>): <detail>"`, otherwise `{code, source, detail}` yields
the detail alone; when no element matches, the fault is swallowed and the
call completes with no payload. -/
theorem claim_C2 (es : List ErrorItem) (supp : List Nat) :
    (es.find? (fun e => errHasCodeStatusDetail e || errHasCodeSourceDetail e) = none →
      APIRequest (.errors es) supp = .ok none) ∧
    (∀ e, es.find? (fun e => errHasCodeStatusDetail e || errHasCodeSourceDetail e) = some e →
      APIRequest (.errors es) supp = .error (classifyError e)) := by
  induction es with
  | nil => simp [APIRequest, handleErrorList]
  | cons a rest ih =>
    by_cases h1 : errHasCodeStatusDetail a
    · refine ⟨fun hn => ?_, fun e he => ?_⟩
      · simp [List.find?_cons, h1] at hn
      · simp only [List.find?_cons, h1, Bool.true_or, Option.some.injEq] at he
        subst he
        simp [APIRequest, handleErrorList, classifyError, h1]
    · by_cases h2 : errHasCodeSourceDetail a
      · refine ⟨fun hn => ?_, fun e he => ?_⟩
        · simp [List.find?_cons, h1, h2] at hn
        · simp only [List.find?_cons, h1, h2, Bool.false_or, Bool.true_or,
            Option.some.injEq] at he
          subst he
          simp [APIRequest, handleErrorList, classifyError, h1, h2]
      · have hstep : APIRequest (.errors (a :: rest)) supp = APIRequest (.errors rest) supp := by
          simp [APIRequest, handleErrorList, h1, h2]
        refine ⟨fun hn => ?_, fun e he => ?_⟩
        · rw [hstep]
          refine ih.1 ?_
          simpa [List.find?_cons, h1, h2] using hn
        · rw [hstep]
          refine ih.2 e ?_
          simpa [List.find?_cons, h1, h2] using he

/-- C2 witness: the fixture body `{errors: [{code: "E1", status: "500",
detail: "boom"}]}` makes execute fail with exactly `"E1 (500): boom"`. -/
theorem claim_C2_witness :
    APIRequest
      (.errors [{ code := some "E1", status := some "500", source := none, detail := some "boom" }])
      [] = .error "E1 (500): boom" := by
  have h :=
    (claim_C2
      [{ code := some "E1", status := some "500", source := none, detail := some "boom" }] []).2
      { code := some "E1", status := some "500", source := none, detail := some "boom" }
      (by decide)
  have hc : classifyError
      { code := some "E1", status := some "500", source := none, detail := some "boom" } =
      "E1 (500): boom" := by decide
  rw [hc] at h
  exact h

/-! ### Data model (Client, Server, File) -/

/-- The `CLIENT_UNVERIFIED_ERROR` constant of the `Client` class. -/
def CLIENT_UNVERIFIED_ERROR : String := "Client is unverified, login to proceed"

/-- The slice of the `Client` class the file subsystem consumes: `host`,
`token` and the `verified` flag checked before every network call. -/
structure Client where
  host : String
  token : String
  verified : Bool
  deriving Repr, DecidableEq

/-- The slice of the `Server` class the file subsystem consumes. -/
structure Server where
  identifier : String
  client : Client
  deriving Repr, DecidableEq

/-- A `{read, write, execute}` access triple (`FileAccess` in the source). -/
structure FileAccess where
  read : Bool
  write : Bool
  execute : Bool
  deriving Repr, DecidableEq

/-- `FileData.attributes`: one entry of a directory-listing payload. -/
structure FileAttributes where
  name : String
  mode : String
  size : Nat
  is_file : Bool
  is_symlink : Bool
  is_editable : Bool
  mimetype : String
  created_at : String
  modified_at : Option String
  deriving Repr, DecidableEq

/-- The `File` class's fields.  Timestamp strings are carried verbatim
(`Date` parsing not modelled) and the wall-clock `fetchedAt` is omitted. -/
structure File where
  name : String
  ownerFileAccess : FileAccess
  userFileAccess : FileAccess
  isDirectory : Bool
  size : Nat
  symlink : Bool
  editable : Bool
  mimeType : String
  createdAt : String
  modifiedAt : Option String
  location : String
  root : String
  mode : String
  server : Server
  deriving Repr, DecidableEq

/-- The `File` constructor (`constructor(data, server, parent = "")`): trims
one trailing separator from `parent`, composes `location` and `root`, and
decodes the 7-character mode string (the source's locals `flag`,
`ownerPerms = mode.substr(1, 3)`, `userPerms = mode.substr(4, 3)` are
inlined). -/
def File.construct (attributes : FileAttributes) (server : Server)
    (parent : String := "") : File :=
  { name := attributes.name
    size := attributes.size
    symlink := attributes.is_symlink
    editable := attributes.is_editable
    mimeType := attributes.mimetype
    mode := attributes.mode
    location := trimTrailingSeparator parent ++ "/" ++ attributes.name
    root :=
      if (trimTrailingSeparator parent).length = 0 then "/"
      else trimTrailingSeparator parent
    isDirectory := jsCharAt attributes.mode 0 == "d"
    ownerFileAccess :=
      { read := jsCharAt (jsSubstr attributes.mode 1 3) 0 == "r"
        write := jsCharAt (jsSubstr attributes.mode 1 3) 1 == "w"
        execute := jsCharAt (jsSubstr attributes.mode 1 3) 2 == "x" }
    userFileAccess :=
      { read := jsCharAt (jsSubstr attributes.mode 4 3) 0 == "r"
        write := jsCharAt (jsSubstr attributes.mode 4 3) 1 == "w"
        execute := jsCharAt (jsSubstr attributes.mode 4 3) 2 == "x" }
    createdAt := attributes.created_at
    modifiedAt := attributes.modified_at
    server := server }

/-- A verified client fixture. -/
def clientFx : Client :=
  { host := "https://panel.example", token := "tok", verified := true }

/-- A server fixture owned by `clientFx`. -/
def serverFx : Server :=
  { identifier := "abc123", client := clientFx }

/-- A plain-file listing entry fixture. -/
def attrsFileFx : FileAttributes :=
  { name := "a.txt", mode := "-rw-r--", size := 5, is_file := true,
    is_symlink := false, is_editable := true, mimetype := "text/plain",
    created_at := "2021-01-01T00:00:00Z", modified_at := none }

/-- A directory listing entry fixture with mode `"drwxr-x"`. -/
def attrsDirFx : FileAttributes :=
  { name := "docs", mode := "drwxr-x", size := 0, is_file := false,
    is_symlink := false, is_editable := false, mimetype := "inode/directory",
    created_at := "2021-01-01T00:00:00Z", modified_at := none }

/-- C5 counterexample: with parent `"//"` (one trailing separator trimmed
leaves `"/"`, which is nonempty), the constructed entity has `root = "/"`
but `location = "//a.txt"`, so the claimed identity
`location == (if root == "/" then "" else root) + "/" + name` fails. -/
theorem claim_C5_counterexample :
    (File.construct attrsFileFx serverFx "//").root = "/" ∧
    (File.construct attrsFileFx serverFx "//").location = "//a.txt" ∧
    ¬((File.construct attrsFileFx serverFx "//").location =
      (if (File.construct attrsFileFx serverFx "//").root = "/" then ""
       else (File.construct attrsFileFx serverFx "//").root) ++ "/" ++
        (File.construct attrsFileFx serverFx "//").name) := by
  refine ⟨rfl, rfl, ?_⟩
  decide

/-- C5 (amended): for every caller-supplied parent, `location` equals the
parent trimmed of exactly one trailing separator concatenated with `"/"` and
the entry name, and `root` is `"/"` when the trimmed parent has length 0 and
the trimmed parent otherwise; the derived identity
`location == (if root == "/" then "" else root) + "/" + name` holds whenever
the trimmed parent is not itself `"/"` (i.e. for every parent other than
`"//"`). -/
theorem claim_C5 (attributes : FileAttributes) (server : Server) (parent : String) :
    (File.construct attributes server parent).location =
      trimTrailingSeparator parent ++ "/" ++ attributes.name ∧
    (File.construct attributes server parent).root =
      (if (trimTrailingSeparator parent).length = 0 then "/"
       else trimTrailingSeparator parent) ∧
    (trimTrailingSeparator parent ≠ "/" →
      (File.construct attributes server parent).location =
        (if (File.construct attributes server parent).root = "/" then ""
         else (File.construct attributes server parent).root) ++ "/" ++
          (File.construct attributes server parent).name) := by
  refine ⟨rfl, rfl, fun hne => ?_⟩
  show trimTrailingSeparator parent ++ "/" ++ attributes.name =
    (if (if (trimTrailingSeparator parent).length = 0 then "/"
         else trimTrailingSeparator parent) = "/" then ""
     else if (trimTrailingSeparator parent).length = 0 then "/"
       else trimTrailingSeparator parent) ++ "/" ++ attributes.name
  by_cases hp : (trimTrailingSeparator parent).length = 0
  · have hpe : trimTrailingSeparator parent = "" := by
      rcases htr : trimTrailingSeparator parent with ⟨l⟩
      rw [htr] at hp
      simp only [String.length] at hp
      simp [List.length_eq_zero.mp hp]
    rw [hpe]
    simp
  · have hroot : (if (trimTrailingSeparator parent).length = 0 then "/"
        else trimTrailingSeparator parent) = trimTrailingSeparator parent := if_neg hp
    rw [hroot, if_neg hne]

/-- C5 witness: a root-level listing entry (empty parent) satisfies all three
parts of the amended invariant, with `root = "/"` and `location = "/a.txt"`. -/
theorem claim_C5_witness :
    (File.construct attrsFileFx serverFx "").location = "/a.txt" ∧
    (File.construct attrsFileFx serverFx "").root = "/" ∧
    (File.construct attrsFileFx serverFx "").location =
      (if (File.construct attrsFileFx serverFx "").root = "/" then ""
       else (File.construct attrsFileFx serverFx "").root) ++ "/" ++
        (File.construct attrsFileFx serverFx "").name := by
  have h := claim_C5 attrsFileFx serverFx ""
  refine ⟨by rw [h.1]; rfl, by rw [h.2.1]; rfl, h.2.2 (by decide)⟩

/-- Two singleton strings are `==` exactly when their characters are. -/
theorem beq_mk_singleton (c d : Char) :
    (String.mk [c] == String.mk [d]) = (c == d) := by
  by_cases h : c = d
  · subst h
    simp
  · have hs : String.mk [c] ≠ String.mk [d] := by
      intro he
      have h2 : [c] = [d] := congrArg String.data he
      simp at h2
      exact h h2
    rw [beq_eq_false_iff_ne.mpr hs, beq_eq_false_iff_ne.mpr h]

/-- C6: for every 7-character mode string, the constructor decodes character
0 as the directory flag (`"d"`), characters 1-3 as the owner triple and
characters 4-6 as the user triple, where triple positions 0/1/2 are
read/write/execute and are set exactly when the character is `r`/`w`/`x`. -/
theorem claim_C6 (attributes : FileAttributes) (server : Server) (parent : String)
    (c0 c1 c2 c3 c4 c5 c6 : Char)
    (h : attributes.mode.data = [c0, c1, c2, c3, c4, c5, c6]) :
    ((File.construct attributes server parent).isDirectory = true ↔ c0 = 'd') ∧
    (File.construct attributes server parent).ownerFileAccess =
      { read := c1 == 'r', write := c2 == 'w', execute := c3 == 'x' } ∧
    (File.construct attributes server parent).userFileAccess =
      { read := c4 == 'r', write := c5 == 'w', execute := c6 == 'x' } := by
  have hd : ("d" : String) = String.mk ['d'] := rfl
  have hr : ("r" : String) = String.mk ['r'] := rfl
  have hw : ("w" : String) = String.mk ['w'] := rfl
  have hx : ("x" : String) = String.mk ['x'] := rfl
  refine ⟨?_, ?_, ?_⟩
  · show (jsCharAt attributes.mode 0 == "d") = true ↔ c0 = 'd'
    rw [jsCharAt, h, hd]
    show (String.mk [c0] == String.mk ['d']) = true ↔ c0 = 'd'
    rw [beq_mk_singleton]
    exact beq_iff_eq
  · show FileAccess.mk (jsCharAt (jsSubstr attributes.mode 1 3) 0 == "r")
      (jsCharAt (jsSubstr attributes.mode 1 3) 1 == "w")
      (jsCharAt (jsSubstr attributes.mode 1 3) 2 == "x") = _
    rw [jsSubstr, h]
    show FileAccess.mk (jsCharAt (String.mk [c1, c2, c3]) 0 == "r")
      (jsCharAt (String.mk [c1, c2, c3]) 1 == "w")
      (jsCharAt (String.mk [c1, c2, c3]) 2 == "x") = _
    rw [jsCharAt, jsCharAt, jsCharAt, hr, hw, hx]
    show FileAccess.mk (String.mk [c1] == String.mk ['r'])
      (String.mk [c2] == String.mk ['w'])
      (String.mk [c3] == String.mk ['x']) = _
    rw [beq_mk_singleton, beq_mk_singleton, beq_mk_singleton]
  · show FileAccess.mk (jsCharAt (jsSubstr attributes.mode 4 3) 0 == "r")
      (jsCharAt (jsSubstr attributes.mode 4 3) 1 == "w")
      (jsCharAt (jsSubstr attributes.mode 4 3) 2 == "x") = _
    rw [jsSubstr, h]
    show FileAccess.mk (jsCharAt (String.mk [c4, c5, c6]) 0 == "r")
      (jsCharAt (String.mk [c4, c5, c6]) 1 == "w")
      (jsCharAt (String.mk [c4, c5, c6]) 2 == "x") = _
    rw [jsCharAt, jsCharAt, jsCharAt, hr, hw, hx]
    show FileAccess.mk (String.mk [c4] == String.mk ['r'])
      (String.mk [c5] == String.mk ['w'])
      (String.mk [c6] == String.mk ['x']) = _
    rw [beq_mk_singleton, beq_mk_singleton, beq_mk_singleton]

/-- C6 witness: the fixture `"drwxr-x"` decodes to directory = true, owner
rwx = true/true/true, user rwx = true/false/true. -/
theorem claim_C6_witness :
    (File.construct attrsDirFx serverFx "").isDirectory = true ∧
    (File.construct attrsDirFx serverFx "").ownerFileAccess = ⟨true, true, true⟩ ∧
    (File.construct attrsDirFx serverFx "").userFileAccess = ⟨true, false, true⟩ := by
  have h := claim_C6 attrsDirFx serverFx "" 'd' 'r' 'w' 'x' 'r' '-' 'x' (by decide)
  refine ⟨h.1.mpr rfl, ?_, ?_⟩
  · rw [h.2.1]
    decide
  · rw [h.2.2]
    decide

/-! ### HTTP requests issued by the file operations

Each network-bound operation is modelled as a function of the upstream
directory listing it would receive (the `response.data.data` array of its
re-listing GET), returning the requests it issues in order together with the
result it computes, under the assumption that every issued call completes
with a success status.  A thrown error is `Except.error` with the thrown
message; an operation that falls off its end returns `.ok none`. -/

/-- One `{from, to}` element of a rename body (`from`/`to` are Lean keywords,
hence `fromName`/`toName`). -/
structure RenamePair where
  fromName : String
  toName : String
  deriving Repr, DecidableEq

/-- The JSON body shapes sent to the upstream file endpoints. -/
inductive RequestBody where
  | empty
  | renameFiles (root : String) (files : List RenamePair)
  | files (root : String) (files : List String)
  | mkdir (root : String) (name : String)
  | decompressFile (root : String) (file : String)
  | copyLocation (location : String)
  | text (contents : String)
  deriving Repr, DecidableEq

/-- An HTTP request as constructed by the source (method, full URL, the
`Content-Type` header, body, and the `supressErrors` set passed to
`APIRequest`). -/
structure Request where
  method : String
  url : String
  contentType : String
  body : RequestBody
  suppressed : List Nat
  deriving Repr, DecidableEq

/-- The `client.host + "/api/client/servers/" + identifier + "/files/..."`
URL prefix shared by every file endpoint. -/
def serverFilesUrl (server : Server) (tail : String) : String :=
  server.client.host ++ "/api/client/servers/" ++ server.identifier ++ "/files/" ++ tail

/-- The directory re-listing GET request (`/files/list?directory=<dir>`). -/
def listRequest (server : Server) (directory : String) : Request :=
  { method := "get"
    url := serverFilesUrl server ("list?directory=" ++ directory)
    contentType := "application/json"
    body := .empty
    suppressed := [] }

/-- The raw-text write POST request (`/files/write?file=<path>`). -/
def writeRequest (server : Server) (path contents : String) : Request :=
  { method := "post"
    url := serverFilesUrl server ("write?file=" ++ path)
    contentType := "text/plain"
    body := .text contents
    suppressed := [204] }

/-- The target path resolved by `File.write` (source lines 387-401): trim one
trailing separator from the node's root; with no explicit path, append the
node's own name; with an explicit path, strip one leading separator and
append. -/
def fileWriteResolvedPath (root name : String) : Option String → String
  | none => trimTrailingSeparator root ++ "/" ++ name
  | some p => trimTrailingSeparator root ++ "/" ++ stripLeadingSeparator p

/-- The target path resolved by `File.writeChild` (source lines 454-464):
like `File.write` with an explicit path, but based at the directory's own
`location`. -/
def fileWriteChildResolvedPath (location path : String) : String :=
  trimTrailingSeparator location ++ "/" ++ stripLeadingSeparator path

/-- The `path.split("/") / pop() / join("/")` recovery of `(parent, name)`
after a write (source lines 419-421). -/
def splitParentAndName (path : String) : String × String :=
  (jsJoin "/" (jsSplit path '/').dropLast, (jsSplit path '/').getLastD "")

/-- The directory `File.addDirectory` resolves (source lines 511-521): trim
one trailing separator from the location argument, then append it *directly*
(no separator) to `this.location` for a directory node or `this.root` for a
file node. -/
def fileAddDirectoryLocation (isDir : Bool) (location root locArg : String) : String :=
  if isDir = true then location ++ trimTrailingSeparator locArg
  else root ++ trimTrailingSeparator locArg

/-- The location `FileManager.addDirectory` resolves (source lines 163-167):
the trailing separator is trimmed only when the location string is longer
than one character, so `"/"` is left untrimmed. -/
def fmAddDirectoryLocation (location : String) : String :=
  if 1 < location.length then trimTrailingSeparator location else location

/-- `File.rename(name)`: PUT `/files/rename` with body
`{root, files: [{from, to}]}` suppressing 204, re-list the parent, and return
the entry matching the new name; throw
`"Unable to complete the operation"` when the re-listing has no match. -/
def File.rename (f : File) (name : String) (listing : List FileAttributes) :
    List Request × Except String File :=
  if f.server.client.verified = true then
    ([{ method := "put"
        url := serverFilesUrl f.server "rename"
        contentType := "application/json"
        body := .renameFiles f.root [⟨f.name, name⟩]
        suppressed := [204] },
      listRequest f.server f.root],
     match listing.find? (fun file => file.name == name) with
     | some file => .ok (File.construct file f.server f.root)
     | none => .error "Unable to complete the operation")
  else ([], .error CLIENT_UNVERIFIED_ERROR)

/-- `File.sync()`: re-list the parent and return the entry matching the
original name; throw `"Unable to find the file, has it been renamed?"` when
absent. -/
def File.sync (f : File) (listing : List FileAttributes) :
    List Request × Except String File :=
  if f.server.client.verified = true then
    ([listRequest f.server f.root],
     match listing.find? (fun file => file.name == f.name) with
     | some file => .ok (File.construct file f.server f.root)
     | none => .error "Unable to find the file, has it been renamed?")
  else ([], .error CLIENT_UNVERIFIED_ERROR)

/-- `File.write(contents, path?)`: reject directories, resolve the target
path, POST the raw text suppressing 204, re-list the recovered parent, and
return the entry matching the recovered name — falling off the end
(`.ok none`) when the re-listing has no match. -/
def File.write (f : File) (contents : String) (path : Option String)
    (listing : List FileAttributes) : List Request × Except String (Option File) :=
  if f.isDirectory = true then
    ([], .error "A directory has no file contents, did you mean writeChild?")
  else if f.server.client.verified = true then
    ([writeRequest f.server (fileWriteResolvedPath f.root f.name path) contents,
      listRequest f.server (splitParentAndName (fileWriteResolvedPath f.root f.name path)).1],
     .ok ((listing.find? (fun file =>
        file.name == (splitParentAndName (fileWriteResolvedPath f.root f.name path)).2)).map
       (fun file => File.construct file f.server
         (splitParentAndName (fileWriteResolvedPath f.root f.name path)).1)))
  else ([], .error CLIENT_UNVERIFIED_ERROR)

/-- `File.writeChild(contents, path)`: symmetric to `write` but only valid on
directories and based at the directory's own location. -/
def File.writeChild (f : File) (contents path : String)
    (listing : List FileAttributes) : List Request × Except String (Option File) :=
  if f.isDirectory = false then
    ([], .error "This is a file, not a directory. You cannot add or edit a child from it.")
  else if f.server.client.verified = true then
    ([writeRequest f.server (fileWriteChildResolvedPath f.location path) contents,
      listRequest f.server (splitParentAndName (fileWriteChildResolvedPath f.location path)).1],
     .ok ((listing.find? (fun file =>
        file.name == (splitParentAndName (fileWriteChildResolvedPath f.location path)).2)).map
       (fun file => File.construct file f.server
         (splitParentAndName (fileWriteChildResolvedPath f.location path)).1)))
  else ([], .error CLIENT_UNVERIFIED_ERROR)

/-- `File.addDirectory(name, location = "/")`: POST `/files/create-folder`
with body `{root, name}` suppressing 204, re-list the resolved location, and
return the entry matching `name` — falling off the end (`.ok none`) when the
re-listing has no match. -/
def File.addDirectory (f : File) (name location : String)
    (listing : List FileAttributes) : List Request × Except String (Option File) :=
  if f.server.client.verified = true then
    ([{ method := "post"
        url := serverFilesUrl f.server ("create-folder?file=" ++
          fileAddDirectoryLocation f.isDirectory f.location f.root location ++ "/" ++ name)
        contentType := "application/json"
        body := .mkdir (fileAddDirectoryLocation f.isDirectory f.location f.root location) name
        suppressed := [204] },
      listRequest f.server (fileAddDirectoryLocation f.isDirectory f.location f.root location)],
     .ok ((listing.find? (fun file => file.name == name)).map
       (fun file => File.construct file f.server
         (fileAddDirectoryLocation f.isDirectory f.location f.root location))))
  else ([], .error CLIENT_UNVERIFIED_ERROR)

/-- `File.duplicate(toLocation, newName = "")`: POST `/files/copy` with body
`{location: <trimmed toLocation>/<newName or name>}` suppressing 204, then
return `true`. -/
def File.duplicate (f : File) (toLocation : String) (newName : String := "") :
    List Request × Except String Bool :=
  if f.server.client.verified = true then
    ([{ method := "post"
        url := serverFilesUrl f.server "copy"
        contentType := "application/json"
        body := .copyLocation (trimTrailingSeparator toLocation ++ "/" ++
          (if newName.length = 0 then f.name else newName))
        suppressed := [204] }],
     .ok true)
  else ([], .error CLIENT_UNVERIFIED_ERROR)

/-- `File.delete()`: POST `/files/delete` with body `{root, files: [name]}`
suppressing 204, then return `true`. -/
def File.delete (f : File) : List Request × Except String Bool :=
  if f.server.client.verified = true then
    ([{ method := "post"
        url := serverFilesUrl f.server "delete"
        contentType := "application/json"
        body := .files f.root [f.name]
        suppressed := [204] }],
     .ok true)
  else ([], .error CLIENT_UNVERIFIED_ERROR)

/-- `File.compress()`: POST `/files/compress` with body
`{root, files: [name]}` (no suppressed status), constructing the new entity
directly from the response payload. -/
def File.compress (f : File) (respAttrs : FileAttributes) :
    List Request × Except String File :=
  if f.server.client.verified = true then
    ([{ method := "post"
        url := serverFilesUrl f.server "compress"
        contentType := "application/json"
        body := .files f.root [f.name]
        suppressed := [] }],
     .ok (File.construct respAttrs f.server f.root))
  else ([], .error CLIENT_UNVERIFIED_ERROR)

/-- `File.decompress(deleteSelf = false)`: POST `/files/decompress` with body
`{root, file}` suppressing 204, then invoke `this.delete()` unconditionally
(the source neither awaits it nor consults `deleteSelf`), and return `true`. -/
def File.decompress (f : File) (deleteSelf : Bool := false) :
    List Request × Except String Bool :=
  if f.server.client.verified = true then
    ({ method := "post"
       url := serverFilesUrl f.server "decompress"
       contentType := "application/json"
       body := .decompressFile f.root f.name
       suppressed := [204] } :: (File.delete f).1,
     .ok true)
  else ([], .error CLIENT_UNVERIFIED_ERROR)

/-- `FileManager.getFolderContents(path)`: GET the listing at `path` and
construct one `File` per entry with the *default empty parent*
(`new File(file, this.server)`). -/
def FileManager.getFolderContents (server : Server) (path : String)
    (listing : List FileAttributes) : List Request × Except String (List File) :=
  if server.client.verified = true then
    ([listRequest server path],
     .ok (listing.map (fun file => File.construct file server)))
  else ([], .error CLIENT_UNVERIFIED_ERROR)

/-- `FileManager.writeFile(contents, path)`: strip one leading separator from
the caller-supplied path, POST the raw text suppressing 204, re-list the
recovered parent, and return the matching entry (`.ok none` when absent). -/
def FileManager.writeFile (server : Server) (contents path : String)
    (listing : List FileAttributes) : List Request × Except String (Option File) :=
  if server.client.verified = true then
    ([writeRequest server (stripLeadingSeparator path) contents,
      listRequest server (splitParentAndName (stripLeadingSeparator path)).1],
     .ok ((listing.find? (fun file =>
        file.name == (splitParentAndName (stripLeadingSeparator path)).2)).map
       (fun file => File.construct file server
         (splitParentAndName (stripLeadingSeparator path)).1)))
  else ([], .error CLIENT_UNVERIFIED_ERROR)

/-- `FileManager.addDirectory(name, location = "/")`: POST
`/files/create-folder` with body `{root, name}` (location trimmed only when
longer than one character), re-list, and return the matching entry
(`.ok none` when absent). -/
def FileManager.addDirectory (server : Server) (name location : String)
    (listing : List FileAttributes) : List Request × Except String (Option File) :=
  if server.client.verified = true then
    ([{ method := "post"
        url := serverFilesUrl server ("create-folder?file=" ++
          fmAddDirectoryLocation location ++ "/" ++ name)
        contentType := "application/json"
        body := .mkdir (fmAddDirectoryLocation location) name
        suppressed := [204] },
      listRequest server (fmAddDirectoryLocation location)],
     .ok ((listing.find? (fun file => file.name == name)).map
       (fun file => File.construct file server (fmAddDirectoryLocation location))))
  else ([], .error CLIENT_UNVERIFIED_ERROR)

/-- Translate a "no entry with this name" hypothesis into the `find?` scan
coming up empty. -/
theorem find_name_eq_none (listing : List FileAttributes) (n : String)
    (h : ∀ a ∈ listing, ¬ a.name = n) :
    listing.find? (fun file => file.name == n) = none :=
  List.find?_eq_none.mpr (fun x hx => by simpa [beq_iff_eq] using h x hx)

/-- C3 counterexample: a write on a plain file whose post-write re-listing
(here empty) lacks the resolved file name completes with `.ok none` — the
JS function falls off its end and silently returns `undefined` — instead of
failing with a consistency fault as the claim states for `write`. -/
theorem claim_C3_counterexample :
    (File.write (File.construct attrsFileFx serverFx "") "data" none []).2 =
      .ok none := by
  decide

/-- C3 (amended): when the post-mutation re-listing lacks the expected entry,
`rename` fails with `"Unable to complete the operation"` (a consistency
fault), but `write`, `writeChild` and `addDirectory` silently return an
absent result (`undefined`). -/
theorem claim_C3 (f : File) (newName contents childPath dirName locArg : String)
    (path : Option String) (listing : List FileAttributes)
    (hv : f.server.client.verified = true) :
    ((∀ a ∈ listing, ¬ a.name = newName) →
      (File.rename f newName listing).2 = .error "Unable to complete the operation") ∧
    (f.isDirectory = false →
      (∀ a ∈ listing,
        ¬ a.name = (splitParentAndName (fileWriteResolvedPath f.root f.name path)).2) →
      (File.write f contents path listing).2 = .ok none) ∧
    (f.isDirectory = true →
      (∀ a ∈ listing,
        ¬ a.name = (splitParentAndName (fileWriteChildResolvedPath f.location childPath)).2) →
      (File.writeChild f contents childPath listing).2 = .ok none) ∧
    ((∀ a ∈ listing, ¬ a.name = dirName) →
      (File.addDirectory f dirName locArg listing).2 = .ok none) := by
  refine ⟨fun h => ?_, fun hnd h => ?_, fun hd h => ?_, fun h => ?_⟩
  · rw [File.rename, if_pos hv]
    rw [find_name_eq_none listing newName h]
  · rw [File.write, if_neg (by simp [hnd]), if_pos hv]
    rw [find_name_eq_none listing _ h]
    rfl
  · rw [File.writeChild, if_neg (by simp [hd]), if_pos hv]
    rw [find_name_eq_none listing _ h]
    rfl
  · rw [File.addDirectory, if_pos hv]
    rw [find_name_eq_none listing _ h]
    rfl

/-- C3 witness: renaming `"a.txt"` to `"b.txt"` against an empty post-rename
listing fails with the consistency-fault message, while a write against the
same empty listing returns the absent result. -/
theorem claim_C3_witness :
    (File.rename (File.construct attrsFileFx serverFx "") "b.txt" []).2 =
      .error "Unable to complete the operation" ∧
    (File.write (File.construct attrsFileFx serverFx "") "data" none []).2 =
      .ok none := by
  have h := claim_C3 (File.construct attrsFileFx serverFx "") "b.txt" "data" "" "d" "/"
    none [] (by decide)
  exact ⟨h.1 (by simp), h.2.1 (by decide) (by simp)⟩

/-- C7: `decompress` ignores its `deleteSelf` flag entirely — the whole
operation is identical for both flag values — and after the decompress POST
(`{root, file}`, 204 suppressed) it unconditionally issues the delete of the
source archive entry (`{root, files: [name]}` against the node's own root and
name), returning `true`. -/
theorem claim_C7 (f : File) (deleteSelf : Bool)
    (hv : f.server.client.verified = true) :
    File.decompress f deleteSelf = File.decompress f false ∧
    (File.decompress f deleteSelf).1.map Request.body =
      [.decompressFile f.root f.name, .files f.root [f.name]] ∧
    (File.decompress f deleteSelf).2 = .ok true := by
  refine ⟨rfl, ?_, ?_⟩
  · rw [File.decompress, File.delete, if_pos hv, if_pos hv]
    rfl
  · rw [File.decompress, if_pos hv]

/-- C7 witness: with `deleteSelf = true` on the concrete fixture, the issued
bodies are the decompress body followed by the delete of the archive entry,
and the call returns `true`. -/
theorem claim_C7_witness :
    (File.decompress (File.construct attrsFileFx serverFx "") true).1.map Request.body =
      [RequestBody.decompressFile "/" "a.txt", RequestBody.files "/" ["a.txt"]] ∧
    (File.decompress (File.construct attrsFileFx serverFx "") true).2 = .ok true := by
  have h := claim_C7 (File.construct attrsFileFx serverFx "") true (by decide)
  exact ⟨h.2.1.trans (by decide), h.2.2⟩

/-- C8: constructing an entity from a listing entry, mutating nothing, and
resyncing against a parent listing in which the name scan still finds the
original attributes yields an entity with identical `name`, `size`,
`isDirectory` and owner/user permission triples. -/
theorem claim_C8 (attrs : FileAttributes) (server : Server) (parent : String)
    (listing : List FileAttributes)
    (hv : server.client.verified = true)
    (hfind : listing.find?
      (fun file => file.name == (File.construct attrs server parent).name) = some attrs) :
    ∃ g, (File.sync (File.construct attrs server parent) listing).2 = .ok g ∧
      g.name = (File.construct attrs server parent).name ∧
      g.size = (File.construct attrs server parent).size ∧
      g.isDirectory = (File.construct attrs server parent).isDirectory ∧
      g.ownerFileAccess = (File.construct attrs server parent).ownerFileAccess ∧
      g.userFileAccess = (File.construct attrs server parent).userFileAccess := by
  refine ⟨File.construct attrs server (File.construct attrs server parent).root,
    ?_, rfl, rfl, rfl, rfl, rfl⟩
  have hv' : (File.construct attrs server parent).server.client.verified = true := hv
  rw [File.sync, if_pos hv']
  rw [hfind]
  rfl

/-- C8 witness: the fixture entity resynced against a listing still holding
its entry comes back with identical identity and permission fields. -/
theorem claim_C8_witness :
    ∃ g, (File.sync (File.construct attrsFileFx serverFx "") [attrsFileFx]).2 = .ok g ∧
      g.name = (File.construct attrsFileFx serverFx "").name ∧
      g.size = (File.construct attrsFileFx serverFx "").size ∧
      g.isDirectory = (File.construct attrsFileFx serverFx "").isDirectory ∧
      g.ownerFileAccess = (File.construct attrsFileFx serverFx "").ownerFileAccess ∧
      g.userFileAccess = (File.construct attrsFileFx serverFx "").userFileAccess :=
  claim_C8 attrsFileFx serverFx "" [attrsFileFx] (by decide) (by decide)

/-- C9 counterexample: `duplicate` (the copy operation) does not send
`{root, files: [name]}` — it sends `{location: <target>/<copyName>}`. -/
theorem claim_C9_counterexample :
    (File.duplicate (File.construct attrsFileFx serverFx "") "/backups" "").1.map
      Request.body = [RequestBody.copyLocation "/backups/a.txt"] ∧
    (File.duplicate (File.construct attrsFileFx serverFx "") "/backups" "").1.map
      Request.body ≠ [RequestBody.files "/" ["a.txt"]] := by
  decide

/-- C9 (amended): rename sends `{root, files: [{from, to}]}`; delete and
compress send `{root, files: [name]}`; mkdir sends `{root, name}`; decompress
sends `{root, file}`; but copy (`duplicate`) sends
`{location: trimTrailingSeparator(toLocation) + "/" + (newName or name)}`,
not `{root, files: [name]}`.  Re-listing GETs carry no body. -/
theorem claim_C9 (f : File) (newName dirName locArg toLocation newCopyName : String)
    (listing : List FileAttributes) (respAttrs : FileAttributes) (deleteSelf : Bool)
    (hv : f.server.client.verified = true) :
    (File.rename f newName listing).1.map Request.body =
      [.renameFiles f.root [⟨f.name, newName⟩], .empty] ∧
    (File.delete f).1.map Request.body = [.files f.root [f.name]] ∧
    (File.compress f respAttrs).1.map Request.body = [.files f.root [f.name]] ∧
    (File.addDirectory f dirName locArg listing).1.map Request.body =
      [.mkdir (fileAddDirectoryLocation f.isDirectory f.location f.root locArg) dirName,
       .empty] ∧
    (File.decompress f deleteSelf).1.map Request.body =
      [.decompressFile f.root f.name, .files f.root [f.name]] ∧
    (File.duplicate f toLocation newCopyName).1.map Request.body =
      [.copyLocation (trimTrailingSeparator toLocation ++ "/" ++
        (if newCopyName.length = 0 then f.name else newCopyName))] := by
  refine ⟨?_, ?_, ?_, ?_, ?_, ?_⟩
  · rw [File.rename, if_pos hv]
    rfl
  · rw [File.delete, if_pos hv]
    rfl
  · rw [File.compress, if_pos hv]
    rfl
  · rw [File.addDirectory, if_pos hv]
    rfl
  · rw [File.decompress, File.delete, if_pos hv, if_pos hv]
    rfl
  · rw [File.duplicate, if_pos hv]
    rfl

/-- C9 witness: concrete bodies for delete and rename on the fixture file. -/
theorem claim_C9_witness :
    (File.delete (File.construct attrsFileFx serverFx "")).1.map Request.body =
      [RequestBody.files "/" ["a.txt"]] ∧
    (File.rename (File.construct attrsFileFx serverFx "") "b.txt" []).1.map Request.body =
      [RequestBody.renameFiles "/" [⟨"a.txt", "b.txt"⟩], RequestBody.empty] := by
  have h := claim_C9 (File.construct attrsFileFx serverFx "") "b.txt" "d" "/" "/backups" ""
    [] attrsFileFx false (by decide)
  exact ⟨h.2.1.trans (by decide), h.1.trans (by decide)⟩

/-- C10: `getFolderContents` constructs every returned entity with the empty
default parent, so regardless of which directory `path` was listed, every
returned entity has `root = "/"` and `location = "/" + name`. -/
theorem claim_C10 (server : Server) (path : String) (listing : List FileAttributes)
    (hv : server.client.verified = true) :
    (FileManager.getFolderContents server path listing).2 =
      .ok (listing.map (fun file => File.construct file server "")) ∧
    (∀ fl, (FileManager.getFolderContents server path listing).2 = .ok fl →
      ∀ f ∈ fl, f.root = "/" ∧ f.location = "/" ++ f.name) := by
  have heq : (FileManager.getFolderContents server path listing).2 =
      .ok (listing.map (fun file => File.construct file server "")) := by
    rw [FileManager.getFolderContents, if_pos hv]
  refine ⟨heq, fun fl hfl f hf => ?_⟩
  rw [heq] at hfl
  obtain rfl : listing.map (fun file => File.construct file server "") = fl :=
    Except.ok.inj hfl
  obtain ⟨a, _, rfl⟩ := List.mem_map.mp hf
  exact ⟨rfl, rfl⟩

/-- C10 witness: an entity returned from listing the nested directory
`"/deep/nested"` is still parented at the server root. -/
theorem claim_C10_witness :
    (File.construct attrsFileFx serverFx "").root = "/" ∧
    (File.construct attrsFileFx serverFx "").location =
      "/" ++ (File.construct attrsFileFx serverFx "").name := by
  have h := claim_C10 serverFx "/deep/nested" [attrsFileFx] (by decide)
  exact h.2 [File.construct attrsFileFx serverFx ""] (by decide)
    (File.construct attrsFileFx serverFx "") (by decide)

/-! ### Path-composition lemmas for C4

The composed child path is `trimTrailingSeparator(root) ++ "/" ++ child`
(with one leading separator stripped from a caller-supplied child).  The
lemmas below work on the underlying character lists. -/

/-- Character-list form of `trimTrailingSeparator`. -/
def trimD (l : List Char) : List Char :=
  if l.getLast? = some '/' then l.dropLast else l

/-- Character-list form of `stripLeadingSeparator`. -/
def stripD (l : List Char) : List Char :=
  if l.head? = some '/' then l.drop 1 else l

/-- `String` append acts as list append on the character data. -/
theorem data_append (a b : String) : (a ++ b).data = a.data ++ b.data := rfl

/-- `trimTrailingSeparator` agrees with its character-list form. -/
theorem data_trim (s : String) :
    (trimTrailingSeparator s).data = trimD s.data := by
  by_cases h : s.data.getLast? = some '/' <;>
    simp [trimTrailingSeparator, jsEndsWithSlash, trimD, h]

/-- `stripLeadingSeparator` agrees with its character-list form. -/
theorem data_strip (s : String) :
    (stripLeadingSeparator s).data = stripD s.data := by
  by_cases h : s.data.head? = some '/' <;>
    simp [stripLeadingSeparator, jsStartsWithSlash, stripD, h]

/-- A double separator anywhere in the right part is one in the whole. -/
theorem hasDD_append_right (xs ys : List Char) (h : hasDD ys = true) :
    hasDD (xs ++ ys) = true := by
  induction xs with
  | nil => simpa using h
  | cons a t ih =>
    rw [List.cons_append]
    cases ht : t ++ ys with
    | nil =>
      rcases List.append_eq_nil.mp ht with ⟨_, h2⟩
      subst h2
      simp [hasDD] at h
    | cons b r =>
      rw [ht] at ih
      show ((a == '/' && b == '/') || hasDD (b :: r)) = true
      rw [ih]
      simp

/-- A double separator anywhere in the left part is one in the whole. -/
theorem hasDD_append_left (xs ys : List Char) :
    hasDD xs = true → hasDD (xs ++ ys) = true := by
  induction xs with
  | nil =>
    intro h
    simp [hasDD] at h
  | cons a t ih =>
    intro h
    cases t with
    | nil => simp [hasDD] at h
    | cons b r =>
      simp only [hasDD] at h
      show hasDD (a :: b :: (r ++ ys)) = true
      simp only [hasDD]
      rw [Bool.or_eq_true] at h
      rcases h with h1 | h2
      · rw [h1]
        simp
      · have h3 := ih h2
        rw [List.cons_append] at h3
        rw [h3]
        simp

/-- Dropping the last character cannot create a double separator. -/
theorem hasDD_dropLast (l : List Char) (h : hasDD l = false) :
    hasDD l.dropLast = false := by
  by_contra hc
  have h' : hasDD l.dropLast = true := by
    cases hdd : hasDD l.dropLast
    · exact absurd hdd hc
    · rfl
  cases l with
  | nil => simp [hasDD] at h'
  | cons a t =>
    have hne : (a :: t) ≠ [] := by simp
    have hDD := hasDD_append_left (a :: t).dropLast [(a :: t).getLast hne] h'
    rw [List.dropLast_append_getLast hne] at hDD
    rw [h] at hDD
    exact Bool.noConfusion hDD

/-- Trimming preserves the absence of a double separator. -/
theorem trimD_no_dd (l : List Char) (h : hasDD l = false) :
    hasDD (trimD l) = false := by
  rw [trimD]
  by_cases hl : l.getLast? = some '/'
  · rw [if_pos hl]
    exact hasDD_dropLast l h
  · rw [if_neg hl]
    exact h

/-- A separator-free-of-`"//"` path, once trimmed of one trailing separator,
does not end with a separator. -/
theorem trimD_getLast (l : List Char) (h : hasDD l = false) :
    (trimD l).getLast? ≠ some '/' := by
  rw [trimD]
  by_cases hl : l.getLast? = some '/'
  · rw [if_pos hl]
    intro hd
    have e1 : l.dropLast.dropLast ++ ['/'] = l.dropLast :=
      List.dropLast_append_getLast? '/' (Option.mem_def.mpr hd)
    have e2 : l.dropLast ++ ['/'] = l :=
      List.dropLast_append_getLast? '/' (Option.mem_def.mpr hl)
    have hDD : hasDD l = true := by
      rw [← e2, ← e1, List.append_assoc]
      exact hasDD_append_right _ _ (by decide)
    rw [h] at hDD
    exact Bool.noConfusion hDD
  · rw [if_neg hl]
    exact hl

/-- Prefixing a separator to a path that neither begins with one nor contains
`"//"` yields no `"//"`. -/
theorem hasDD_cons_slash (c : List Char) (h : hasDD c = false)
    (hh : c.head? ≠ some '/') : hasDD ('/' :: c) = false := by
  cases c with
  | nil => rfl
  | cons x r =>
    simp only [hasDD]
    have hx : (x == '/') = false := by
      by_cases hx' : x = '/'
      · exact absurd (by simp [hx']) hh
      · simp [hx']
    rw [h, hx]
    rfl

/-- Concatenation introduces no double separator when neither part has one
and they do not meet separator-to-separator. -/
theorem hasDD_append_no (xs ys : List Char) :
    hasDD xs = false → hasDD ys = false →
    ¬(xs.getLast? = some '/' ∧ ys.head? = some '/') →
    hasDD (xs ++ ys) = false := by
  induction xs with
  | nil =>
    intro _ hy _
    simpa using hy
  | cons a t ih =>
    intro hx hy hb
    cases t with
    | nil =>
      cases ys with
      | nil => simp [hasDD]
      | cons c r =>
        show hasDD (a :: c :: r) = false
        simp only [hasDD]
        have hac : (a == '/' && c == '/') = false := by
          by_cases ha : a = '/'
          · by_cases hc : c = '/'
            · exact absurd ⟨by simp [ha], by simp [hc]⟩ hb
            · simp [hc]
          · simp [ha]
        rw [hac, hy]
        rfl
    | cons b r =>
      simp only [hasDD, Bool.or_eq_false_iff] at hx
      show hasDD (a :: b :: (r ++ ys)) = false
      simp only [hasDD, Bool.or_eq_false_iff]
      refine ⟨hx.1, ?_⟩
      have hlast : (b :: r).getLast? = (a :: b :: r).getLast? := by
        rw [List.getLast?_cons_cons]
      have h2 := ih hx.2 hy (by rw [hlast]; exact hb)
      rw [List.cons_append] at h2
      exact h2

/-- Stripping one leading separator preserves the absence of `"//"`. -/
theorem stripD_no_dd (l : List Char) (h : hasDD l = false) :
    hasDD (stripD l) = false := by
  rw [stripD]
  by_cases hl : l.head? = some '/'
  · rw [if_pos hl]
    cases l with
    | nil => exact h
    | cons a t =>
      cases t with
      | nil => rfl
      | cons b r =>
        simp only [hasDD, Bool.or_eq_false_iff] at h
        exact h.2
  · rw [if_neg hl]
    exact h

/-- After stripping one leading separator from a `"//"`-free path, the result
does not begin with a separator. -/
theorem stripD_head (l : List Char) (h : hasDD l = false) :
    (stripD l).head? ≠ some '/' := by
  rw [stripD]
  by_cases hl : l.head? = some '/'
  · rw [if_pos hl]
    cases l with
    | nil => simp at hl
    | cons a t =>
      have ha : a = '/' := by simpa using hl
      subst ha
      cases t with
      | nil => simp
      | cons b r =>
        intro hb
        have hbv : b = '/' := by simpa using hb
        subst hbv
        simp [hasDD] at h
  · rw [if_neg hl]
    exact hl

/-- The head of a nonempty `dropLast` is the head of the original list. -/
theorem head_dropLast (l : List Char) :
    l.dropLast = [] ∨ l.dropLast.head? = l.head? := by
  cases l with
  | nil => left; rfl
  | cons a t =>
    cases t with
    | nil => left; rfl
    | cons b r => right; rfl

/-- The composed path begins with a separator whenever the root is empty or
begins with one. -/
theorem composed_head (rootD c : List Char)
    (hstart : rootD = [] ∨ rootD.head? = some '/') :
    (trimD rootD ++ '/' :: c).head? = some '/' := by
  rcases hstart with h | h
  · subst h
    rfl
  · cases rootD with
    | nil => simp at h
    | cons a t =>
      have ha : a = '/' := by simpa using h
      subst ha
      rw [trimD]
      by_cases hl : ('/' :: t).getLast? = some '/'
      · rw [if_pos hl]
        cases hdl : ('/' :: t).dropLast with
        | nil => rfl
        | cons x xs =>
          rcases head_dropLast ('/' :: t) with hd | hd
          · rw [hdl] at hd
            exact absurd hd (by simp)
          · rw [hdl] at hd
            have hx : x = '/' := by simpa using hd
            subst hx
            rfl
      · rw [if_neg hl]
        rfl

/-- C4 counterexample: `FileManager.addDirectory` leaves the length-1
location `"/"` untrimmed and composes `"//dir"` (visible in the request
URLs); `File.addDirectory` appends the location directly to a file node's
root `"/"`, likewise composing `"//dir"`; and `FileManager.writeFile` strips
the leading separator and sends a path that does not begin with `"/"`. -/
theorem claim_C4_counterexample :
    (FileManager.addDirectory serverFx "dir" "/" []).1.map Request.url =
      ["https://panel.example/api/client/servers/abc123/files/create-folder?file=//dir",
       "https://panel.example/api/client/servers/abc123/files/list?directory=/"] ∧
    hasDoubleSep (fmAddDirectoryLocation "/" ++ "/" ++ "dir") = true ∧
    hasDoubleSep (fileAddDirectoryLocation false "/a.txt" "/" "/" ++ "/" ++ "dir") = true ∧
    jsStartsWithSlash (stripLeadingSeparator "/a.txt") = false := by
  decide

/-- C4 (amended): for valid pairs — a root that is empty or begins with `"/"`
and contains no `"//"`, and a child containing no `"//"` — the composition
`trimTrailingSeparator(root) ++ "/" ++ child`, with one leading separator
stripped from a caller-supplied child path, as performed by `File.write` and
`File.writeChild`, never produces a double separator and always begins with
`"/"`; it does not hold for `FileManager.addDirectory`, `File.addDirectory`
or `FileManager.writeFile` (see the counterexample). -/
theorem claim_C4 (root name child : String)
    (hroot : root = "" ∨ jsStartsWithSlash root = true)
    (hrootDD : hasDoubleSep root = false)
    (hnameDD : hasDoubleSep name = false)
    (hchildDD : hasDoubleSep child = false) :
    (jsStartsWithSlash name = false →
      hasDoubleSep (fileWriteResolvedPath root name none) = false ∧
      jsStartsWithSlash (fileWriteResolvedPath root name none) = true) ∧
    (hasDoubleSep (fileWriteResolvedPath root name (some child)) = false ∧
      jsStartsWithSlash (fileWriteResolvedPath root name (some child)) = true) ∧
    (hasDoubleSep (fileWriteChildResolvedPath root child) = false ∧
      jsStartsWithSlash (fileWriteChildResolvedPath root child) = true) := by
  have hstart : root.data = [] ∨ root.data.head? = some '/' := by
    rcases hroot with h | h
    · left
      rw [h]
    · right
      simpa [jsStartsWithSlash] using h
  have hrd : hasDD root.data = false := hrootDD
  have main : ∀ c : List Char, hasDD c = false → c.head? ≠ some '/' →
      hasDD (trimD root.data ++ '/' :: c) = false ∧
      (trimD root.data ++ '/' :: c).head? = some '/' := by
    intro c hcdd hch
    constructor
    · refine hasDD_append_no _ _ (trimD_no_dd _ hrd) (hasDD_cons_slash c hcdd hch) ?_
      rintro ⟨h1, _⟩
      exact trimD_getLast root.data hrd h1
    · exact composed_head root.data c hstart
  have hdataN : (trimTrailingSeparator root ++ "/" ++ name).data =
      trimD root.data ++ '/' :: name.data := by
    rw [data_append, data_append, data_trim, List.append_assoc]
    rfl
  have hdataS : (trimTrailingSeparator root ++ "/" ++ stripLeadingSeparator child).data =
      trimD root.data ++ '/' :: stripD child.data := by
    rw [data_append, data_append, data_trim, data_strip, List.append_assoc]
    rfl
  have hsc := main (stripD child.data) (stripD_no_dd _ hchildDD) (stripD_head _ hchildDD)
  refine ⟨fun hns => ?_, ?_, ?_⟩
  · have hnh : name.data.head? ≠ some '/' := by
      intro hh
      rw [jsStartsWithSlash] at hns
      rw [hh] at hns
      simp at hns
    have hm := main name.data hnameDD hnh
    constructor
    · show hasDD (fileWriteResolvedPath root name none).data = false
      rw [fileWriteResolvedPath, hdataN]
      exact hm.1
    · show ((fileWriteResolvedPath root name none).data.head? == some '/') = true
      rw [fileWriteResolvedPath, hdataN, hm.2]
      rfl
  · constructor
    · show hasDD (fileWriteResolvedPath root name (some child)).data = false
      rw [fileWriteResolvedPath, hdataS]
      exact hsc.1
    · show ((fileWriteResolvedPath root name (some child)).data.head? == some '/') = true
      rw [fileWriteResolvedPath, hdataS, hsc.2]
      rfl
  · constructor
    · show hasDD (fileWriteChildResolvedPath root child).data = false
      rw [fileWriteChildResolvedPath, hdataS]
      exact hsc.1
    · show ((fileWriteChildResolvedPath root child).data.head? == some '/') = true
      rw [fileWriteChildResolvedPath, hdataS, hsc.2]
      rfl

/-- C4 witness: with root `"/srv"`, own name `"a.txt"` and caller-supplied
child path `"/sub/file.txt"`, all three compositions are separator-clean and
absolute. -/
theorem claim_C4_witness :
    (hasDoubleSep (fileWriteResolvedPath "/srv" "a.txt" none) = false ∧
      jsStartsWithSlash (fileWriteResolvedPath "/srv" "a.txt" none) = true) ∧
    (hasDoubleSep (fileWriteResolvedPath "/srv" "a.txt" (some "/sub/file.txt")) = false ∧
      jsStartsWithSlash (fileWriteResolvedPath "/srv" "a.txt" (some "/sub/file.txt")) = true) ∧
    (hasDoubleSep (fileWriteChildResolvedPath "/srv" "/sub/file.txt") = false ∧
      jsStartsWithSlash (fileWriteChildResolvedPath "/srv" "/sub/file.txt") = true) := by
  have h := claim_C4 "/srv" "a.txt" "/sub/file.txt" (Or.inr (by decide))
    (by decide) (by decide) (by decide)
  exact ⟨h.1 (by decide), h.2.1, h.2.2⟩

end Ptero
